import Mathlib

/-!
Verification of the Game of Life engine (`src/Game.cpp`, `src/Game.hpp`).

The grid `int **grid` is embedded as a total function `Int → Int → Int`
(column, row ↦ cell value); a C array write becomes a functional update.
Loops over coordinate ranges become folds over explicit coordinate lists in
the same iteration order as the C code.  Cell values are `Int`, matching the
`int` cells of the source, with `ALIVE = 1` and `DEAD = 0` as in the macros.
-/

namespace GoL

/-- A grid of cells: column `x`, row `y` ↦ stored `int` value. -/
abbrev Grid := Int → Int → Int

/-- `#define ALIVE 1` -/
def ALIVE : Int := 1

/-- `#define DEAD 0` -/
def DEAD : Int := 0

/-- `struct Cell` from `Game.hpp`: an ordered `(x, y)` pair of `int`s. -/
structure Cell where
  x : Int
  y : Int
deriving DecidableEq, Repr

/-- A single array write `grid[x][y] = v`, as a functional update. -/
def update (g : Grid) (x y v : Int) : Grid :=
  fun a b => if a = x ∧ b = y then v else g a b

/-- The eight-term Moore-neighborhood sum computed inside
`Game::determineFate` (`totalLiveNeighbors`). -/
def neighborSum (g : Grid) (x y : Int) : Int :=
  g (x - 1) (y - 1) + g (x - 1) y + g (x - 1) (y + 1) + g x (y - 1) +
    g x (y + 1) + g (x + 1) (y - 1) + g (x + 1) y + g (x + 1) (y + 1)

/-- The branch structure of `Game::determineFate` as a pure rule:
fewer than 2 or more than 3 live neighbors → `DEAD`; exactly 2 → the
current state; otherwise (exactly 3 of the reachable counts) → `ALIVE`. -/
def nextStateVal (cur n : Int) : Int :=
  if n < 2 ∨ n > 3 then DEAD
  else if n = 2 then cur
  else ALIVE

/-- `Game::determineFate`: sum the eight neighbors of `c` in `g`, then write
the resulting state into `nextGrid` at `c`'s coordinates. -/
def determineFate (g : Grid) (c : Cell) (nextGrid : Grid) : Grid :=
  let x := c.x
  let y := c.y
  let totalLiveNeighbors :=
    g (x - 1) (y - 1) + g (x - 1) y + g (x - 1) (y + 1) + g x (y - 1) +
      g x (y + 1) + g (x + 1) (y - 1) + g (x + 1) y + g (x + 1) (y + 1)
  if totalLiveNeighbors < 2 ∨ totalLiveNeighbors > 3 then
    update nextGrid x y DEAD
  else if totalLiveNeighbors = 2 then
    update nextGrid x y (g x y)
  else
    update nextGrid x y ALIVE

/-- The `n` consecutive integers starting at `lo`: the index set of a C
`for` loop `for (i = lo; i < lo + n; ++i)`. -/
def intRange (lo : Int) (n : Nat) : List Int :=
  (List.range n).map fun i : Nat => lo + (i : Int)

/-- All coordinate pairs of an outer loop over `xs` and an inner loop over
`ys`, in iteration order. -/
def cellProd : List Int → List Int → List Cell
  | [], _ => []
  | x :: xs, ys => ys.map (fun y => Cell.mk x y) ++ cellProd xs ys

/-- The coordinates visited by `tick`'s loops
`for (x = 1; x < width-1; ++x) for (y = 1; y < height-1; ++y)`. -/
def interiorCells (W H : Nat) : List Cell :=
  cellProd (intRange 1 (W - 2)) (intRange 1 (H - 2))

/-- The coordinates visited by `clearGrid`'s loops
`for (col = 0; col < width; ++col) for (row = 0; row < height; ++row)`. -/
def allCells (W H : Nat) : List Cell :=
  cellProd (intRange 0 W) (intRange 0 H)

/-- An everywhere-`DEAD` grid: the scratch `nextGrid` right after `tick`
zeroes it. -/
def deadGrid : Grid := fun _ _ => DEAD

/-- `Game::clearGrid`: write `DEAD` into every cell of the `W × H` array. -/
def clearGrid (W H : Nat) (g : Grid) : Grid :=
  (allCells W H).foldl (fun gr c => update gr c.x c.y DEAD) g

/-- `Game::initializePattern`: mark the location of each `Cell` of
`patternCells` as `ALIVE` in the grid. -/
def initializePattern (patternCells : List Cell) (g : Grid) : Grid :=
  patternCells.foldl (fun gr c => update gr c.x c.y ALIVE) g

/-- `Game::tick`: build a scratch grid, all `DEAD`; run `determineFate` on
every non-border cell against the current grid; then copy every non-border
cell of the scratch grid back over the current grid. -/
def tick (W H : Nat) (g : Grid) : Grid :=
  let nextGrid :=
    (interiorCells W H).foldl (fun n c => determineFate g c n) deadGrid
  (interiorCells W H).foldl (fun gr c => update gr c.x c.y (nextGrid c.x c.y)) g

/-- `n` repetitions of `Game::tick`. -/
def tickN (W H : Nat) (g : Grid) : Nat → Grid
  | 0 => g
  | n + 1 => tick W H (tickN W H g n)

/-- Base coordinates of the `'o'` (oscillator) pattern in
`Game::setPatternVector`. -/
def oscillatorCells : List Cell :=
  [⟨1, 0⟩, ⟨1, 1⟩, ⟨1, 2⟩]

/-- Base coordinates of the `'g'` (glider) pattern in
`Game::setPatternVector`. -/
def gliderCells : List Cell :=
  [⟨0, 2⟩, ⟨1, 0⟩, ⟨1, 2⟩, ⟨2, 1⟩, ⟨2, 2⟩]

/-- Base coordinates of the `'u'` (glider gun) pattern in
`Game::setPatternVector`. -/
def gliderGunCells : List Cell :=
  [⟨0, 4⟩, ⟨0, 5⟩, ⟨1, 4⟩, ⟨1, 5⟩,
   ⟨10, 4⟩, ⟨10, 5⟩, ⟨10, 6⟩, ⟨11, 3⟩,
   ⟨11, 7⟩, ⟨12, 2⟩, ⟨12, 8⟩, ⟨13, 2⟩,
   ⟨13, 8⟩, ⟨14, 5⟩, ⟨15, 3⟩, ⟨15, 7⟩,
   ⟨16, 4⟩, ⟨16, 5⟩, ⟨16, 6⟩, ⟨17, 5⟩,
   ⟨20, 2⟩, ⟨20, 3⟩, ⟨20, 4⟩, ⟨21, 2⟩,
   ⟨21, 3⟩, ⟨21, 4⟩, ⟨22, 1⟩, ⟨22, 5⟩,
   ⟨24, 0⟩, ⟨24, 1⟩, ⟨24, 5⟩, ⟨24, 6⟩,
   ⟨34, 2⟩, ⟨34, 3⟩, ⟨35, 2⟩, ⟨35, 3⟩]

/-- The hard-coded `buffer = 5` of the `Game` constructor. -/
def buffer : Nat := 5

/-- The `switch (pattern)` of `Game::setPatternVector`: a known key selects
its base coordinate vector; any other key hits the empty `default:` case and
keeps the previous `patternCells`. -/
def patternSwitch (prev : List Cell) (pattern : Char) : List Cell :=
  if pattern = 'o' then oscillatorCells
  else if pattern = 'g' then gliderCells
  else if pattern = 'u' then gliderGunCells
  else prev

/-- `Game::setPatternVector`: run the `switch`, then shift every entry of the
resulting `patternCells` by `(buffer + xOffset, buffer + yOffset)`. -/
def setPatternVector (prev : List Cell) (pattern : Char)
    (xOffset yOffset : Int) : List Cell :=
  (patternSwitch prev pattern).map
    (fun c : Cell =>
      ⟨c.x + (buffer : Int) + xOffset, c.y + (buffer : Int) + yOffset⟩)

/-- The catalog as a key-indexed map (the spec's view of the `switch`):
known keys map to their base coordinate lists, anything else to nothing. -/
def baseCells (pattern : Char) : List Cell :=
  patternSwitch [] pattern

/-- The grid produced by the `Game` constructor body on a grid of total
dimensions `W × H`: `clearGrid`, then `setPatternVector` (from the empty
initial `patternCells`), then `initializePattern`.  `g0` stands for the
indeterminate contents of the freshly allocated array. -/
def initGrid (g0 : Grid) (W H : Nat) (pattern : Char) (xo yo : Int) : Grid :=
  initializePattern (setPatternVector [] pattern xo yo) (clearGrid W H g0)

/-- The fields of `class Game` that the constructor initializes. -/
structure Game where
  width : Int
  height : Int
  generations : Int
  pauseLength : Int
  grid : Grid
  patternCells : List Cell

/-- The `Game` constructor: `buffer = 5` is hard-coded, the stored
dimensions are the arguments plus `2 * buffer`, the grid is allocated
(contents `g0`), cleared, and stamped with the offset pattern.  No argument
is validated and no failure path exists. -/
def mkGame (g0 : Grid) (width height : Int) (pattern : Char)
    (xOffset yOffset generations pauseLength : Int) : Game :=
  let W := width + 2 * (buffer : Int)
  let H := height + 2 * (buffer : Int)
  let cells := setPatternVector [] pattern xOffset yOffset
  { width := W
    height := H
    generations := generations
    pauseLength := pauseLength
    grid := initializePattern cells (clearGrid W.toNat H.toNat g0)
    patternCells := cells }

/-- `Game::printWholeGrid`: one output row per grid row `0 ≤ row < H`, one
character per column `0 ≤ col < W`; `'X'` for `ALIVE`, `'.'` otherwise. -/
def printWholeGrid (W H : Nat) (g : Grid) : List (List Char) :=
  (List.range H).map fun row : Nat =>
    (List.range W).map fun col : Nat =>
      if g (col : Int) (row : Int) = ALIVE then 'X' else '.'

/-- `Game::printWindow`: rows `buffer ≤ row < H - buffer` and columns
`buffer ≤ col < W - buffer` only; `'X'` for `ALIVE`, `'.'` otherwise. -/
def printWindow (W H : Nat) (g : Grid) : List (List Char) :=
  (List.range (H - 2 * buffer)).map fun i : Nat =>
    (List.range (W - 2 * buffer)).map fun j : Nat =>
      if g ((buffer : Int) + (j : Int)) ((buffer : Int) + (i : Int)) = ALIVE
      then 'X' else '.'

/-- `1 ≤ x < W-1` and `1 ≤ y < H-1`: the cells `tick` recomputes. -/
abbrev Interior (W H : Nat) (x y : Int) : Prop :=
  1 ≤ x ∧ x < (W : Int) - 1 ∧ 1 ≤ y ∧ y < (H : Int) - 1

/-- The outermost one-cell border of a `W × H` grid. -/
abbrev OnBorder (W H : Nat) (x y : Int) : Prop :=
  x = 0 ∨ x = (W : Int) - 1 ∨ y = 0 ∨ y = (H : Int) - 1

/-- `0 ≤ x < W` and `0 ≤ y < H`: coordinates inside the allocated array. -/
abbrev InRange (W H : Nat) (x y : Int) : Prop :=
  0 ≤ x ∧ x < (W : Int) ∧ 0 ≤ y ∧ y < (H : Int)

/-- A vertical blinker: live cells exactly `(x, y)`, `(x, y+1)`, `(x, y+2)`
(the `'o'` catalog shape, at an arbitrary absolute position). -/
def vBlinker (x y : Int) : Grid :=
  fun a b => if a = x ∧ (b = y ∨ b = y + 1 ∨ b = y + 2) then ALIVE else DEAD

/-- A horizontal blinker: live cells exactly `(x-1, y+1)`, `(x, y+1)`,
`(x+1, y+1)`. -/
def hBlinker (x y : Int) : Grid :=
  fun a b => if (a = x - 1 ∨ a = x ∨ a = x + 1) ∧ b = y + 1 then ALIVE else DEAD

/-- The transpose view of a grid (swap the roles of column and row). -/
def trGrid (g : Grid) : Grid := fun a b => g b a

/-- Cells all holding `0` or `1` throughout the allocated `W × H` array. -/
def BinaryOn (W H : Nat) (g : Grid) : Prop :=
  ∀ a b : Int, 0 ≤ a → a < (W : Int) → 0 ≤ b → b < (H : Int) →
    g a b = DEAD ∨ g a b = ALIVE

theorem update_apply (g : Grid) (x y v a b : Int) :
    update g x y v a b = if a = x ∧ b = y then v else g a b := rfl

theorem foldl_update_apply (v : Cell → Int) (cs : List Cell) (g0 : Grid)
    (a b : Int) :
    (cs.foldl (fun gr c => update gr c.x c.y (v c)) g0) a b =
      if Cell.mk a b ∈ cs then v (Cell.mk a b) else g0 a b := by
  induction cs generalizing g0 with
  | nil => simp
  | cons c cs ih =>
    obtain ⟨cx, cy⟩ := c
    rw [List.foldl_cons, ih]
    by_cases hmem : Cell.mk a b ∈ cs
    · rw [if_pos hmem, if_pos (List.mem_cons_of_mem _ hmem)]
    · rw [if_neg hmem, update_apply]
      by_cases hc : a = cx ∧ b = cy
      · obtain ⟨rfl, rfl⟩ := hc
        rw [if_pos ⟨rfl, rfl⟩, if_pos (List.mem_cons_self _ _)]
      · have hni : Cell.mk a b ∉ Cell.mk cx cy :: cs := by
          intro hmm
          rcases List.mem_cons.mp hmm with h1 | h2
          · injection h1 with e1 e2
            exact hc ⟨e1, e2⟩
          · exact hmem h2
        rw [if_neg hc, if_neg hni]

theorem determineFate_eq (g : Grid) (c : Cell) (n : Grid) :
    determineFate g c n =
      update n c.x c.y (nextStateVal (g c.x c.y) (neighborSum g c.x c.y)) := by
  simp only [determineFate, nextStateVal, neighborSum]
  split_ifs <;> rfl

theorem mem_intRange (lo : Int) (n : Nat) (a : Int) :
    a ∈ intRange lo n ↔ lo ≤ a ∧ a < lo + n := by
  simp only [intRange, List.mem_map, List.mem_range]
  constructor
  · rintro ⟨i, hi, rfl⟩
    omega
  · intro h
    exact ⟨(a - lo).toNat, by omega, by omega⟩

theorem mem_cellProd (xs ys : List Int) (c : Cell) :
    c ∈ cellProd xs ys ↔ c.x ∈ xs ∧ c.y ∈ ys := by
  obtain ⟨a, b⟩ := c
  induction xs with
  | nil => simp [cellProd]
  | cons x xs ih =>
    simp only [cellProd, List.mem_append, List.mem_map, ih, List.mem_cons]
    constructor
    · rintro (⟨y, hy, hEq⟩ | ⟨hx, hy⟩)
      · injection hEq with e1 e2
        subst e1
        subst e2
        exact ⟨Or.inl rfl, hy⟩
      · exact ⟨Or.inr hx, hy⟩
    · rintro ⟨hx | hx, hy⟩
      · subst hx
        exact Or.inl ⟨b, hy, rfl⟩
      · exact Or.inr ⟨hx, hy⟩

theorem mem_interiorCells (W H : Nat) (a b : Int) :
    Cell.mk a b ∈ interiorCells W H ↔ Interior W H a b := by
  simp only [interiorCells, mem_cellProd, mem_intRange, Interior]
  omega

theorem mem_allCells (W H : Nat) (a b : Int) :
    Cell.mk a b ∈ allCells W H ↔ InRange W H a b := by
  simp only [allCells, mem_cellProd, mem_intRange, InRange]
  omega

theorem tick_apply (W H : Nat) (g : Grid) (a b : Int) :
    tick W H g a b =
      if Interior W H a b then nextStateVal (g a b) (neighborSum g a b)
      else g a b := by
  have hdf : (fun (n : Grid) (c : Cell) => determineFate g c n) =
      fun (n : Grid) (c : Cell) =>
        update n c.x c.y
          ((fun c : Cell =>
            nextStateVal (g c.x c.y) (neighborSum g c.x c.y)) c) :=
    funext fun n => funext fun c => determineFate_eq g c n
  show ((interiorCells W H).foldl
      (fun gr c => update gr c.x c.y
        (((interiorCells W H).foldl (fun n c => determineFate g c n) deadGrid)
          c.x c.y)) g) a b = _
  rw [hdf]
  rw [foldl_update_apply
    (fun c : Cell =>
      ((interiorCells W H).foldl
        (fun n c => update n c.x c.y
          ((fun c : Cell =>
            nextStateVal (g c.x c.y) (neighborSum g c.x c.y)) c)) deadGrid)
        c.x c.y)]
  by_cases hm : Cell.mk a b ∈ interiorCells W H
  · have hi : Interior W H a b := (mem_interiorCells W H a b).mp hm
    rw [if_pos hm, if_pos hi, foldl_update_apply, if_pos hm]
  · have hi : ¬ Interior W H a b := fun h =>
      hm ((mem_interiorCells W H a b).mpr h)
    rw [if_neg hm, if_neg hi]

theorem clearGrid_apply (W H : Nat) (g : Grid) (a b : Int) :
    clearGrid W H g a b = if InRange W H a b then DEAD else g a b := by
  show ((allCells W H).foldl
      (fun gr c => update gr c.x c.y ((fun _ : Cell => DEAD) c)) g) a b = _
  rw [foldl_update_apply (fun _ : Cell => DEAD)]
  by_cases hm : Cell.mk a b ∈ allCells W H
  · rw [if_pos hm, if_pos ((mem_allCells W H a b).mp hm)]
  · rw [if_neg hm,
      if_neg (fun h => hm ((mem_allCells W H a b).mpr h))]

theorem initializePattern_apply (cells : List Cell) (g : Grid) (a b : Int) :
    initializePattern cells g a b =
      if Cell.mk a b ∈ cells then ALIVE else g a b := by
  show (cells.foldl
      (fun gr c => update gr c.x c.y ((fun _ : Cell => ALIVE) c)) g) a b = _
  rw [foldl_update_apply (fun _ : Cell => ALIVE)]

/-- C1: for every current cell state in `{ALIVE, DEAD}` and every
live-neighbor count in `[0, 8]`, the state computation of
`Game::determineFate` is the deterministic rule `nextStateVal`, which
yields `DEAD` when the count is below 2 or above 3, the unchanged current
state when the count is exactly 2, and `ALIVE` when the count is exactly 3;
the last conjunct ties the rule to `determineFate` itself: the value it
writes at the cell is exactly `nextStateVal` of the old state and the
neighbor sum, identically for currently-alive and currently-dead cells. -/
theorem determineFate_rule_table (cur n : Int)
    (hcur : cur = ALIVE ∨ cur = DEAD) (h0 : 0 ≤ n) (h8 : n ≤ 8) :
    ((n < 2 ∨ 3 < n) → nextStateVal cur n = DEAD) ∧
      (n = 2 → nextStateVal cur n = cur) ∧
      (n = 3 → nextStateVal cur n = ALIVE) ∧
      (∀ (g nextGrid : Grid) (c : Cell),
        determineFate g c nextGrid c.x c.y =
          nextStateVal (g c.x c.y) (neighborSum g c.x c.y)) := by
  refine ⟨?_, ?_, ?_, ?_⟩
  · intro h
    simp only [nextStateVal]
    split_ifs <;> first | rfl | omega
  · intro h
    simp only [nextStateVal]
    split_ifs <;> first | rfl | omega
  · intro h
    simp only [nextStateVal]
    split_ifs <;> first | rfl | omega
  · intro g nextGrid c
    rw [determineFate_eq, update_apply, if_pos ⟨rfl, rfl⟩]

theorem determineFate_rule_table_witness :
    ((1 : Int) = ALIVE ∨ (1 : Int) = DEAD) ∧
      (0 ≤ (3 : Int) ∧ (3 : Int) ≤ 8) ∧ nextStateVal 1 3 = ALIVE :=
  ⟨Or.inl rfl, ⟨by decide, by decide⟩,
    (determineFate_rule_table 1 3 (Or.inl rfl) (by decide)
      (by decide)).2.2.1 rfl⟩

/-- C2: one `tick` computes generation N+1 entirely from generation N —
every interior cell of the grid returned by `tick` equals the rule applied
to the *old* grid's cell value and the neighbor sum taken over the *old*
grid, so no neighbor sum within a tick reads a cell already updated in that
tick. -/
theorem tick_computes_from_old_generation (W H : Nat) (g : Grid)
    (x y : Int) (hx1 : 1 ≤ x) (hx2 : x < (W : Int) - 1)
    (hy1 : 1 ≤ y) (hy2 : y < (H : Int) - 1) :
    tick W H g x y = nextStateVal (g x y) (neighborSum g x y) := by
  rw [tick_apply, if_pos ⟨hx1, hx2, hy1, hy2⟩]

theorem tick_computes_from_old_generation_witness :
    (1 ≤ (1 : Int) ∧ (1 : Int) < (3 : Nat) - 1 ∧ 1 ≤ (1 : Int) ∧
        (1 : Int) < (3 : Nat) - 1) ∧
      tick 3 3 deadGrid 1 1 =
        nextStateVal (deadGrid 1 1) (neighborSum deadGrid 1 1) :=
  ⟨⟨by decide, by decide, by decide, by decide⟩,
    tick_computes_from_old_generation 3 3 deadGrid 1 1 (by decide)
      (by decide) (by decide) (by decide)⟩

/-- C5: on a grid whose cells are all 0 or 1, the eight-cell Moore
neighborhood sum at any interior coordinate lies in `[0, 8]`; and on a grid
whose cells are all `DEAD` the neighbor sum is 0 at every interior
coordinate. -/
theorem neighborSum_in_range (W H : Nat) (g : Grid) (x y : Int)
    (hbin : ∀ a b : Int, g a b = DEAD ∨ g a b = ALIVE)
    (hx1 : 1 ≤ x) (hx2 : x < (W : Int) - 1)
    (hy1 : 1 ≤ y) (hy2 : y < (H : Int) - 1) :
    (0 ≤ neighborSum g x y ∧ neighborSum g x y ≤ 8) ∧
      (∀ gd : Grid, (∀ a b : Int, gd a b = DEAD) →
        neighborSum gd x y = 0) := by
  constructor
  · have h1 := hbin (x - 1) (y - 1)
    have h2 := hbin (x - 1) y
    have h3 := hbin (x - 1) (y + 1)
    have h4 := hbin x (y - 1)
    have h5 := hbin x (y + 1)
    have h6 := hbin (x + 1) (y - 1)
    have h7 := hbin (x + 1) y
    have h8 := hbin (x + 1) (y + 1)
    simp only [neighborSum, DEAD, ALIVE] at *
    omega
  · intro gd hgd
    simp only [neighborSum, hgd, DEAD]
    norm_num

theorem neighborSum_in_range_witness :
    (∀ a b : Int, deadGrid a b = DEAD ∨ deadGrid a b = ALIVE) ∧
      (1 ≤ (1 : Int) ∧ (1 : Int) < (3 : Nat) - 1 ∧ 1 ≤ (1 : Int) ∧
        (1 : Int) < (3 : Nat) - 1) ∧
      (0 ≤ neighborSum deadGrid 1 1 ∧ neighborSum deadGrid 1 1 ≤ 8) :=
  ⟨fun _ _ => Or.inl rfl, ⟨by decide, by decide, by decide, by decide⟩,
    (neighborSum_in_range 3 3 deadGrid 1 1 (fun _ _ => Or.inl rfl)
      (by decide) (by decide) (by decide) (by decide)).1⟩

/-- C10: every cell of the allocated array holds exactly `ALIVE` (1) or
`DEAD` (0) at all times — `clearGrid` establishes the binary invariant and
`initializePattern` and `tick` each preserve it. -/
theorem binary_cell_invariant (W H : Nat) (cells : List Cell) (g : Grid)
    (hg : BinaryOn W H g) :
    (∀ g0 : Grid, BinaryOn W H (clearGrid W H g0)) ∧
      BinaryOn W H (initializePattern cells g) ∧
      BinaryOn W H (tick W H g) := by
  refine ⟨?_, ?_, ?_⟩
  · intro g0 a b h1 h2 h3 h4
    rw [clearGrid_apply, if_pos ⟨h1, h2, h3, h4⟩]
    exact Or.inl rfl
  · intro a b h1 h2 h3 h4
    rw [initializePattern_apply]
    by_cases hm : Cell.mk a b ∈ cells
    · rw [if_pos hm]
      exact Or.inr rfl
    · rw [if_neg hm]
      exact hg a b h1 h2 h3 h4
  · intro a b h1 h2 h3 h4
    rw [tick_apply]
    by_cases hi : Interior W H a b
    · rw [if_pos hi]
      have hcur := hg a b h1 h2 h3 h4
      simp only [nextStateVal]
      split_ifs
      · exact Or.inl rfl
      · exact hcur
      · exact Or.inr rfl
    · rw [if_neg hi]
      exact hg a b h1 h2 h3 h4

theorem binary_cell_invariant_witness :
    BinaryOn 3 3 deadGrid ∧
      (BinaryOn 3 3 (initializePattern [Cell.mk 1 1] deadGrid) ∧
        BinaryOn 3 3 (tick 3 3 deadGrid)) :=
  ⟨fun _ _ _ _ _ _ => Or.inl rfl,
    (binary_cell_invariant 3 3 [Cell.mk 1 1] deadGrid
        (fun _ _ _ _ _ _ => Or.inl rfl)).2⟩

theorem not_interior_of_onBorder (W H : Nat) (a b : Int)
    (hb : OnBorder W H a b) : ¬ Interior W H a b := by
  rcases hb with h | h | h | h <;> intro hi <;>
    obtain ⟨h1, h2, h3, h4⟩ := hi <;> omega

/-- C3: for every grid reachable from construction — `clearGrid`, then a
pattern placement whose cells all lie in the interior — and after any
number of `tick`s, every cell of the outermost one-cell border is `DEAD`;
moreover `tick` never changes any border cell of any grid, and every
neighbor lookup made for an interior cell stays within the `W × H`
bounds. -/
theorem border_always_dead (W H : Nat) (g0 : Grid) (k : Char) (xo yo : Int)
    (hcells : ∀ c ∈ setPatternVector [] k xo yo, Interior W H c.x c.y) :
    (∀ (g : Grid) (a b : Int), OnBorder W H a b → tick W H g a b = g a b) ∧
      (∀ (n : Nat) (a b : Int), InRange W H a b → OnBorder W H a b →
        tickN W H (initGrid g0 W H k xo yo) n a b = DEAD) ∧
      (∀ a b : Int, Interior W H a b →
        InRange W H (a - 1) (b - 1) ∧ InRange W H (a + 1) (b + 1) ∧
          InRange W H a b) := by
  refine ⟨?_, ?_, ?_⟩
  · intro g a b hb
    rw [tick_apply, if_neg (not_interior_of_onBorder W H a b hb)]
  · intro n
    induction n with
    | zero =>
      intro a b hr hb
      show initGrid g0 W H k xo yo a b = DEAD
      rw [initGrid, initializePattern_apply]
      have hm : Cell.mk a b ∉ setPatternVector [] k xo yo := fun hm =>
        not_interior_of_onBorder W H a b hb (hcells _ hm)
      rw [if_neg hm, clearGrid_apply, if_pos hr]
    | succ n ih =>
      intro a b hr hb
      show tick W H (tickN W H (initGrid g0 W H k xo yo) n) a b = DEAD
      rw [tick_apply, if_neg (not_interior_of_onBorder W H a b hb)]
      exact ih a b hr hb
  · intro a b hi
    obtain ⟨h1, h2, h3, h4⟩ := hi
    refine ⟨⟨?_, ?_, ?_, ?_⟩, ⟨?_, ?_, ?_, ?_⟩, ?_, ?_, ?_, ?_⟩ <;> omega

theorem border_always_dead_witness :
    (∀ c ∈ setPatternVector [] 'o' 1 1, Interior 13 13 c.x c.y) ∧
      ((∀ (g : Grid) (a b : Int), OnBorder 13 13 a b →
          tick 13 13 g a b = g a b) ∧
        (∀ (n : Nat) (a b : Int), InRange 13 13 a b → OnBorder 13 13 a b →
          tickN 13 13 (initGrid deadGrid 13 13 'o' 1 1) n a b = DEAD) ∧
        (∀ a b : Int, Interior 13 13 a b →
          InRange 13 13 (a - 1) (b - 1) ∧ InRange 13 13 (a + 1) (b + 1) ∧
            InRange 13 13 a b)) :=
  ⟨by decide, border_always_dead 13 13 deadGrid 'o' 1 1 (by decide)⟩

/-- C4: after `clearGrid` followed by pattern placement with a valid key
and offsets `(xo, yo)`, a cell of the allocated array is `ALIVE` exactly
when it is a catalog offset translated by `(buffer + xo, buffer + yo)`
(with the hard-coded `buffer = 5` playing the role of the margin), and
every other cell is `DEAD`. -/
theorem placePattern_exact_catalog (g0 : Grid) (W H : Nat) (k : Char)
    (xo yo : Int) (hk : k = 'o' ∨ k = 'g' ∨ k = 'u')
    (hfit : ∀ c ∈ setPatternVector [] k xo yo, InRange W H c.x c.y)
    (a b : Int) (ha0 : 0 ≤ a) (haW : a < (W : Int))
    (hb0 : 0 ≤ b) (hbH : b < (H : Int)) :
    (initGrid g0 W H k xo yo a b = ALIVE ↔
      ∃ c ∈ baseCells k,
        a = (buffer : Int) + xo + c.x ∧ b = (buffer : Int) + yo + c.y) ∧
      ((¬ ∃ c ∈ baseCells k,
          a = (buffer : Int) + xo + c.x ∧ b = (buffer : Int) + yo + c.y) →
        initGrid g0 W H k xo yo a b = DEAD) := by
  have hmem : Cell.mk a b ∈ setPatternVector [] k xo yo ↔
      ∃ c ∈ baseCells k,
        a = (buffer : Int) + xo + c.x ∧ b = (buffer : Int) + yo + c.y := by
    show Cell.mk a b ∈ (baseCells k).map _ ↔ _
    simp only [List.mem_map]
    constructor
    · rintro ⟨c, hc, hEq⟩
      injection hEq with e1 e2
      exact ⟨c, hc, by omega, by omega⟩
    · rintro ⟨c, hc, h1, h2⟩
      refine ⟨c, hc, ?_⟩
      simp only [Cell.mk.injEq]
      omega
  rw [initGrid, initializePattern_apply]
  by_cases hm : Cell.mk a b ∈ setPatternVector [] k xo yo
  · rw [if_pos hm]
    exact ⟨⟨fun _ => hmem.mp hm, fun _ => rfl⟩,
      fun hn => absurd (hmem.mp hm) hn⟩
  · rw [if_neg hm, clearGrid_apply, if_pos ⟨ha0, haW, hb0, hbH⟩]
    constructor
    · constructor
      · intro h
        exact absurd h (by decide)
      · intro hex
        exact absurd (hmem.mpr hex) hm
    · intro _
      rfl

theorem placePattern_exact_catalog_witness :
    (((('o' : Char) = 'o' ∨ ('o' : Char) = 'g' ∨ ('o' : Char) = 'u') ∧
        (∀ c ∈ setPatternVector [] 'o' 0 0, InRange 12 12 c.x c.y)) ∧
      (0 ≤ (6 : Int) ∧ (6 : Int) < (12 : Nat) ∧ 0 ≤ (5 : Int) ∧
        (5 : Int) < (12 : Nat))) ∧
      (initGrid deadGrid 12 12 'o' 0 0 6 5 = ALIVE ↔
        ∃ c ∈ baseCells 'o',
          (6 : Int) = (buffer : Int) + 0 + c.x ∧
            (5 : Int) = (buffer : Int) + 0 + c.y) :=
  ⟨⟨⟨Or.inl rfl, by decide⟩, ⟨by decide, by decide, by decide, by decide⟩⟩,
    (placePattern_exact_catalog deadGrid 12 12 'o' 0 0 (Or.inl rfl)
        (by decide) 6 5 (by decide) (by decide) (by decide) (by decide)).1⟩

/-- C7 counterexample: `'z'` is not a catalog key, yet placement does not
fail — `setPatternVector` is total, the `switch`'s empty `default:` case
silently keeps the (empty) `patternCells`, and the constructor completes
with no live cells and no error of any kind. -/
theorem unknown_pattern_no_error :
    setPatternVector [] 'z' 0 0 = [] ∧
      (mkGame deadGrid 20 20 'z' 0 0 1 1).patternCells = [] := by
  constructor <;> rfl

/-- C7 amended: for every pattern key outside `{'o', 'g', 'u'}`, placement
does not fail with an error — the code has no error signaling at all;
instead the `switch`'s empty `default:` case leaves `patternCells`
unchanged, so starting from the constructor's empty vector no cell is
placed and the grid stays entirely `DEAD`. -/
theorem unknown_pattern_ignored (k : Char) (xo yo : Int)
    (ho : k ≠ 'o') (hg : k ≠ 'g') (hu : k ≠ 'u') :
    setPatternVector [] k xo yo = [] ∧
      (∀ (g0 : Grid) (W H : Nat) (a b : Int), InRange W H a b →
        initGrid g0 W H k xo yo a b = DEAD) := by
  have h0 : patternSwitch [] k = [] := by
    rw [patternSwitch, if_neg ho, if_neg hg, if_neg hu]
  have h1 : setPatternVector [] k xo yo = [] := by
    show (patternSwitch [] k).map _ = []
    rw [h0]
    rfl
  refine ⟨h1, ?_⟩
  intro g0 W H a b hr
  rw [initGrid, initializePattern_apply, h1,
    if_neg (List.not_mem_nil (Cell.mk a b)), clearGrid_apply, if_pos hr]

theorem unknown_pattern_ignored_witness :
    (('z' : Char) ≠ 'o' ∧ ('z' : Char) ≠ 'g' ∧ ('z' : Char) ≠ 'u') ∧
      setPatternVector [] 'z' 3 4 = [] :=
  ⟨⟨by decide, by decide, by decide⟩,
    (unknown_pattern_ignored 'z' 3 4 (by decide) (by decide)
        (by decide)).1⟩

/-- C8 counterexample: constructing a `Game` with width 0 and height 0
succeeds — there is no `InvalidDimensions` failure path.  The resulting
internal dimensions are `10 × 10`, strictly below `2·buffer + 1 = 11`, and
the object is fully constructed: its grid already carries the placed
pattern. -/
theorem small_dimensions_no_error :
    (mkGame deadGrid 0 0 'o' 0 0 1 1).width = 10 ∧
      (mkGame deadGrid 0 0 'o' 0 0 1 1).height = 10 ∧
      (10 : Int) < 2 * (buffer : Int) + 1 ∧
      (mkGame deadGrid 0 0 'o' 0 0 1 1).grid 6 5 = ALIVE := by
  refine ⟨rfl, rfl, by decide, ?_⟩
  decide

/-- C8 amended: the constructor validates nothing and never fails: for
every input it produces a fully initialized `Game` whose stored dimensions
are the arguments plus `2·buffer`; under the documented preconditions
(positive visible dimensions) those stored dimensions satisfy
`width ≥ 2·buffer + 1` and `height ≥ 2·buffer + 1`, but no check enforces
this and no `InvalidDimensions` error exists. -/
theorem constructor_never_fails (g0 : Grid) (width height : Int) (k : Char)
    (xo yo gens pl : Int) (hw : 1 ≤ width) (hh : 1 ≤ height) :
    (mkGame g0 width height k xo yo gens pl).width =
        width + 2 * (buffer : Int) ∧
      (mkGame g0 width height k xo yo gens pl).height =
        height + 2 * (buffer : Int) ∧
      2 * (buffer : Int) + 1 ≤ (mkGame g0 width height k xo yo gens pl).width ∧
      2 * (buffer : Int) + 1 ≤
        (mkGame g0 width height k xo yo gens pl).height := by
  refine ⟨rfl, rfl, ?_, ?_⟩ <;>
    simp only [mkGame, buffer] <;> omega

theorem constructor_never_fails_witness :
    (1 ≤ (40 : Int) ∧ 1 ≤ (20 : Int)) ∧
      (mkGame deadGrid 40 20 'g' 0 0 1 1).width = 40 + 2 * (buffer : Int) :=
  ⟨⟨by decide, by decide⟩,
    (constructor_never_fails deadGrid 40 20 'g' 0 0 1 1 (by decide)
        (by decide)).1⟩

theorem getD_map_range {α : Type} (n : Nat) (f : Nat → α) (i : Nat)
    (d : α) (h : i < n) : ((List.range n).map f).getD i d = f i := by
  rw [List.getD_eq_getElem?_getD, List.getElem?_map, List.getElem?_range h]
  rfl

/-- C9: the windowed rendering has exactly `H - 2·buffer` rows of exactly
`W - 2·buffer` characters, its character at window position `(i, j)` shows
grid cell `(buffer + j, buffer + i)` — i.e. it covers exactly the
rows/columns in `[buffer, H - buffer) × [buffer, W - buffer)` — with `'X'`
for `ALIVE` and `'.'` otherwise; the full rendering has exactly `H` rows of
`W` characters with the same cell encoding. -/
theorem render_dimensions (W H : Nat) (g : Grid) :
    (printWindow W H g).length = H - 2 * buffer ∧
      (∀ r ∈ printWindow W H g, r.length = W - 2 * buffer) ∧
      (∀ i j : Nat, i < H - 2 * buffer → j < W - 2 * buffer →
        ((printWindow W H g).getD i []).getD j ' ' =
          if g ((buffer : Int) + (j : Int)) ((buffer : Int) + (i : Int)) =
              ALIVE then 'X' else '.') ∧
      (printWholeGrid W H g).length = H ∧
      (∀ r ∈ printWholeGrid W H g, r.length = W) ∧
      (∀ i j : Nat, i < H → j < W →
        ((printWholeGrid W H g).getD i []).getD j ' ' =
          if g (j : Int) (i : Int) = ALIVE then 'X' else '.') := by
  refine ⟨?_, ?_, ?_, ?_, ?_, ?_⟩
  · simp [printWindow]
  · intro r hr
    simp only [printWindow, List.mem_map, List.mem_range] at hr
    obtain ⟨i, _, rfl⟩ := hr
    simp
  · intro i j hi hj
    rw [printWindow, getD_map_range _ _ _ _ hi, getD_map_range _ _ _ _ hj]
  · simp [printWholeGrid]
  · intro r hr
    simp only [printWholeGrid, List.mem_map, List.mem_range] at hr
    obtain ⟨i, _, rfl⟩ := hr
    simp
  · intro i j hi hj
    rw [printWholeGrid, getD_map_range _ _ _ _ hi, getD_map_range _ _ _ _ hj]

theorem render_dimensions_witness :
    ((0 : Nat) < 11 - 2 * buffer ∧ (0 : Nat) < 11 - 2 * buffer) ∧
      ((printWindow 11 11 (fun _ _ => ALIVE)).getD 0 []).getD 0 ' ' = 'X' ∧
      ((printWholeGrid 11 11 (fun _ _ => ALIVE)).getD 10 []).getD 10 ' ' =
        'X' := by
  refine ⟨⟨by decide, by decide⟩, ?_, ?_⟩
  · have h := (render_dimensions 11 11 (fun _ _ => ALIVE)).2.2.1 0 0
      (by decide) (by decide)
    simpa using h
  · have h := (render_dimensions 11 11 (fun _ _ => ALIVE)).2.2.2.2.2 10 10
      (by decide) (by decide)
    simpa using h

set_option maxHeartbeats 4000000 in
theorem tick_vBlinker (W H : Nat) (x y : Int) (hx1 : 2 ≤ x)
    (hx2 : x + 1 < (W : Int) - 1) (hy1 : 1 ≤ y)
    (hy2 : y + 2 < (H : Int) - 1) :
    tick W H (vBlinker x y) = hBlinker x y := by
  funext a b
  rw [tick_apply]
  by_cases hi : Interior W H a b
  · rw [if_pos hi]
    obtain ⟨h1, h2, h3, h4⟩ := hi
    simp only [vBlinker, hBlinker, neighborSum, nextStateVal, ALIVE, DEAD]
    split_ifs <;> omega
  · rw [if_neg hi]
    have hni : ¬ (1 ≤ a ∧ a < (W : Int) - 1 ∧ 1 ≤ b ∧ b < (H : Int) - 1) := hi
    simp only [vBlinker, hBlinker, ALIVE, DEAD]
    split_ifs <;> omega

theorem neighborSum_tr (g : Grid) (a b : Int) :
    neighborSum (trGrid g) a b = neighborSum g b a := by
  simp only [neighborSum, trGrid]
  ring

theorem interior_swap (W H : Nat) (a b : Int) :
    Interior W H a b ↔ Interior H W b a := by
  constructor <;> intro h <;> obtain ⟨h1, h2, h3, h4⟩ := h <;>
    exact ⟨h3, h4, h1, h2⟩

theorem tick_tr (W H : Nat) (g : Grid) :
    tick W H (trGrid g) = trGrid (tick H W g) := by
  funext a b
  rw [tick_apply]
  show _ = tick H W g b a
  rw [tick_apply]
  by_cases hi : Interior W H a b
  · rw [if_pos hi, if_pos ((interior_swap W H a b).mp hi), neighborSum_tr]
    rfl
  · rw [if_neg hi, if_neg (fun h => hi ((interior_swap W H a b).mpr h))]
    rfl

theorem tr_vBlinker (x y : Int) :
    trGrid (vBlinker (y + 1) (x - 1)) = hBlinker x y := by
  funext a b
  simp only [trGrid, vBlinker, hBlinker, ALIVE, DEAD]
  split_ifs <;> omega

theorem tick_hBlinker (W H : Nat) (x y : Int) (hx1 : 2 ≤ x)
    (hx2 : x + 1 < (W : Int) - 1) (hy1 : 1 ≤ y)
    (hy2 : y + 2 < (H : Int) - 1) :
    tick W H (hBlinker x y) = vBlinker x y := by
  rw [(tr_vBlinker x y).symm, tick_tr,
    tick_vBlinker H W (y + 1) (x - 1) (by omega) (by omega) (by omega)
      (by omega)]
  funext a b
  simp only [trGrid, hBlinker, vBlinker, ALIVE, DEAD]
  split_ifs <;> omega

/-- C6 counterexample: a vertical blinker whose three cells all lie in the
interior of a 4 × 5 grid, hugging the left interior column (`x = 1`): the
claim as stated fails, because after two ticks cell `(1, 2)` — alive in the
initial state — is dead, so two ticks do not return the grid to its
original state (the intermediate horizontal phase would need the border
cell `(0, 2)`, which `tick` never writes). -/
theorem blinker_near_border_violates_period_two :
    (Interior 4 5 1 1 ∧ Interior 4 5 1 2 ∧ Interior 4 5 1 3) ∧
      vBlinker 1 1 1 2 = ALIVE ∧
      tick 4 5 (tick 4 5 (vBlinker 1 1)) 1 2 = DEAD := by
  refine ⟨by decide, by decide, ?_⟩
  decide

/-- C6 amended: starting from a grid containing only a vertical blinker
placed with one cell of clearance inside the interior on the left and right
(`2 ≤ x` and `x + 1 < W - 1`, so the horizontal phase also stays interior;
vertically, interior placement `1 ≤ y`, `y + 2 < H - 1` suffices), two
ticks return the grid to exactly its original state and one tick yields a
different state. -/
theorem blinker_period_two (W H : Nat) (x y : Int) (hx1 : 2 ≤ x)
    (hx2 : x + 1 < (W : Int) - 1) (hy1 : 1 ≤ y)
    (hy2 : y + 2 < (H : Int) - 1) :
    tick W H (tick W H (vBlinker x y)) = vBlinker x y ∧
      tick W H (vBlinker x y) ≠ vBlinker x y := by
  have hv := tick_vBlinker W H x y hx1 hx2 hy1 hy2
  have hh := tick_hBlinker W H x y hx1 hx2 hy1 hy2
  refine ⟨by rw [hv, hh], ?_⟩
  rw [hv]
  intro hEq
  have hpt := congrFun (congrFun hEq x) y
  have hL : hBlinker x y x y = DEAD := by
    show (if (x = x - 1 ∨ x = x ∨ x = x + 1) ∧ y = y + 1 then ALIVE
      else DEAD) = DEAD
    exact if_neg fun h => absurd h.2 (by omega)
  have hR : vBlinker x y x y = ALIVE := by
    show (if x = x ∧ (y = y ∨ y = y + 1 ∨ y = y + 2) then ALIVE
      else DEAD) = ALIVE
    exact if_pos ⟨rfl, Or.inl rfl⟩
  rw [hL, hR] at hpt
  exact absurd hpt (by decide)

theorem blinker_period_two_witness :
    (2 ≤ (2 : Int) ∧ (2 : Int) + 1 < (7 : Nat) - 1 ∧ 1 ≤ (1 : Int) ∧
        (1 : Int) + 2 < (7 : Nat) - 1) ∧
      (tick 7 7 (tick 7 7 (vBlinker 2 1)) = vBlinker 2 1 ∧
        tick 7 7 (vBlinker 2 1) ≠ vBlinker 2 1) :=
  ⟨⟨by decide, by decide, by decide, by decide⟩,
    blinker_period_two 7 7 2 1 (by decide) (by decide) (by decide)
      (by decide)⟩

end GoL
